import Mathlib

/-!
Verification of the yadb worker engine (`src/lib/buster.rs`,
`src/lib/buster_messages.rs`, `src/lib/worker/builder.rs`) against its
specification.  The Rust code is shallowly embedded: pure fragments become
Lean functions, the message channel becomes an explicit trace (a list of
emitted messages), the HTTP client becomes a response oracle
`String → ReqResult`, and the `while` loop of `Buster::run` becomes a
fuel-indexed recursion returning `none` when the fuel runs out.
-/

/-- Log levels from `src/lib/logger/traits.rs`. -/
inductive LogLevel
  | INFO
  | WARN
  | ERROR
  | CRITICAL
  deriving Repr, DecidableEq

/-- Progress-bar change payloads from `src/lib/buster_messages.rs`. -/
inductive ProgressChangeMessage
  | SetMessage (s : String)
  | SetSize (n : Nat)
  | Start (n : Nat)
  | Advance
  | Print (s : String)
  | Finish
  deriving Repr, DecidableEq

/-- Progress stream selector (`Total` / `Current`) from `src/lib/buster_messages.rs`. -/
inductive ProgressMessage
  | Total (m : ProgressChangeMessage)
  | Current (m : ProgressChangeMessage)
  deriving Repr, DecidableEq

/-- Top-level engine message from `src/lib/buster_messages.rs`. -/
inductive BusterMessage
  | Progress (m : ProgressMessage)
  | Log (level : LogLevel) (s : String)
  deriving Repr, DecidableEq

namespace BusterMessage

/-- Constructor helper `BusterMessage::set_total_size`. -/
def set_total_size (size : Nat) : BusterMessage :=
  .Progress (.Total (.SetSize size))

/-- Constructor helper `BusterMessage::set_current_size`. -/
def set_current_size (size : Nat) : BusterMessage :=
  .Progress (.Current (.SetSize size))

/-- Constructor helper `BusterMessage::finish_total`. -/
def finish_total : BusterMessage :=
  .Progress (.Total .Finish)

/-- Constructor helper `BusterMessage::finish_current`. -/
def finish_current : BusterMessage :=
  .Progress (.Current .Finish)

/-- Constructor helper `BusterMessage::log`. -/
def log (level : LogLevel) (s : String) : BusterMessage :=
  .Log level s

/-- Constructor helper `BusterMessage::advance_current`. -/
def advance_current : BusterMessage :=
  .Progress (.Current .Advance)

/-- Constructor helper `BusterMessage::advance_total`. -/
def advance_total : BusterMessage :=
  .Progress (.Total .Advance)

end BusterMessage

/-- Model of the url crate's `Url` restricted to the absolute hierarchical
URLs this program handles: a scheme, an optional host and a path beginning
with `/`. -/
structure Url where
  scheme : String
  host : Option String
  path : String
  deriving Repr, DecidableEq

/-- Serialisation of a `Url`, modelling the url crate's `Display`
(`url.to_string()`). -/
def Url.to_string (u : Url) : String :=
  u.scheme ++ "://" ++ (match u.host with | some h => h | none => "") ++ u.path

/-- Splitting a character list at every `/`, the list analogue of splitting
a path string on `/` (an empty input yields the single empty segment, as
the url crate does for the path `/`). -/
def splitOnSlash : List Char → List (List Char)
  | [] => [[]]
  | c :: rest =>
      if c = '/' then [] :: splitOnSlash rest
      else
        match splitOnSlash rest with
        | [] => [[c]]
        | seg :: segs => (c :: seg) :: segs

/-- Models `url.path_segments().unwrap().collect::<Vec<_>>()` for a URL
with a host: the path after its leading `/`, split on `/`. -/
def Url.pathSegments (u : Url) : List String :=
  (splitOnSlash (u.path.data.drop 1)).map (fun cs => ⟨cs⟩)

/-- Models the url crate's `Url::parse` for absolute hierarchical
`scheme://host/path` inputs, the shape this program works with, computed on
the input's character list.  A string with no `://` separator (a relative
URL) fails to parse; an alphabetic scheme followed by a nonempty host
parses with any scheme, and an empty remainder serialises as the path `/`
(the url crate's normalisation for special schemes).  Percent-encoding and
dot-segment normalisation are not modelled; the inputs in this development
avoid them. -/
def urlParse (s : String) : Option Url :=
  let cs := s.data
  let sch := cs.takeWhile (fun c => c ≠ ':')
  let rest := cs.drop sch.length
  if sch.isEmpty ∨ ¬ sch.all Char.isAlpha then none
  else
    match rest with
    | ':' :: '/' :: '/' :: rest2 =>
        let host := rest2.takeWhile (fun c => c ≠ '/')
        let path := rest2.drop host.length
        if host.isEmpty then none
        else some ⟨⟨sch⟩, some ⟨host⟩, if path.isEmpty then "/" else ⟨path⟩⟩
    | _ => none

/-- Models `Url::parse(&url).unwrap()` at the worker's discovery push in
`Buster::execute`; the fallback is unreachable for candidate strings built
by appending a word and `/` to a parsed base URL. -/
def urlParseUnwrap (s : String) : Url :=
  (urlParse s).getD ⟨"", none, "/"⟩

/-- Models the wordlist load in `Buster::run`:
`BufReader::new(file).lines().map_while(Result::ok).collect()`.
`rawLines` are the file's lines in order, `none` marking a line whose bytes
are not valid UTF-8 (those make `BufRead::lines` yield an `Err`);
`map_while` keeps taking lines only while they are `Ok`. -/
def loadWordlist (rawLines : List (Option String)) : List String :=
  (rawLines.takeWhile Option.isSome).filterMap id

/-- The slice of the wordlist handled by worker `i` in `Buster::execute`:
`&words[slice_size*i .. slice_size*i + slice_size]` for every thread except
the last, `&words[slice_size*i ..]` for thread `threads - 1`, where
`slice_size = lines.len() / threads`. -/
def workerSlice (words : List String) (threads i : Nat) : List String :=
  let s := words.length / threads
  if i ≠ threads - 1 then (words.drop (s * i)).take s
  else words.drop (s * i)

/-- Concatenating the `take s`-slices at offsets `0, s, 2·s, …` and the tail
from offset `s·m` reassembles the list. -/
theorem slices_concat_drop (words : List String) (s : Nat) :
    ∀ m : Nat,
      (((List.range m).map (fun i => (words.drop (s * i)).take s)).flatten)
          ++ words.drop (s * m) = words := by
  intro m
  induction m with
  | zero => simp
  | succ m ih =>
    rw [List.range_succ, List.map_append, List.flatten_append]
    simp only [List.map_cons, List.map_nil, List.flatten_cons, List.flatten_nil,
      List.append_nil]
    rw [List.append_assoc]
    have hdrop : words.drop (s * (m + 1)) = (words.drop (s * m)).drop s := by
      rw [List.drop_drop]
      ring_nf
    rw [hdrop, List.take_append_drop]
    exact ih

/-- Outcome of one `client.get(&url).call()` in `Buster::execute`:
`ok status` models `Ok(res)` with `res.status().as_u16() = status` (the agent
is built with `http_status_as_error(false)`, so every HTTP status arrives as
`Ok`); `err msg` models a transport-level `Err(e)` whose display text is
`msg`. -/
inductive ReqResult
  | ok (status : Nat)
  | err (msg : String)
  deriving Repr, DecidableEq

/-- Models Rust's `str::ends_with("/")`: the last character is `/`. -/
def endsWithSlash (s : String) : Bool :=
  s.data.getLast? == some '/'

/-- Candidate URL built for `word` against base `url` in the worker loop of
`Buster::execute`: `format!("{url}{word}/")` when the base's serialisation
ends with `/`, `format!("{url}/{word}/")` otherwise. -/
def probeUrl (u : Url) (word : String) : String :=
  if endsWithSlash u.to_string then u.to_string ++ word ++ "/"
  else u.to_string ++ "/" ++ word ++ "/"

/-- One iteration of the per-word loop in a worker thread of
`Buster::execute`: the messages sent for the probe of `word`, in order, and
the discoveries pushed to the thread's result list.  `console::style(...)`
only wraps the status in terminal colour codes and is modelled as the plain
status text. -/
def probeStep (resp : String → ReqResult) (u : Url) (word : String) :
    List BusterMessage × List Url :=
  let url := probeUrl u word
  match resp url with
  | .ok status =>
      if status ≠ 404 then
        ([.Progress (.Current (.Print ("GET " ++ url ++ " -> " ++ toString status))),
          .Log .INFO (url ++ " -> " ++ toString status),
          .advance_current, .advance_total],
         [urlParseUnwrap url])
      else
        ([.Progress (.Current (.SetMessage ("GET " ++ url ++ " -> " ++ toString status))),
          .advance_current, .advance_total],
         [])
  | .err e =>
      ([.Progress (.Current (.Print ("Error while sending request to " ++ url ++ ": " ++ e))),
        .advance_current, .advance_total],
       [])

/-- A worker thread's loop over its slice in `Buster::execute`: the trace of
messages it sends and the discovery list it returns (the thread's closure
always returns `Ok(result)`; `BusterError` is never constructed in the loop
body). -/
def workerRun (resp : String → ReqResult) (u : Url) :
    List String → List BusterMessage × List Url
  | [] => ([], [])
  | word :: rest =>
      let step := probeStep resp u word
      let tail := workerRun resp u rest
      (step.1 ++ tail.1, step.2 ++ tail.2)

/-- Model of `Buster::execute`: the scoped worker pool over `threads` slices
of `lines`, probing against `u`.  The real worker threads run concurrently
and their sends interleave arbitrarily on the channel; the model serialises
them in slice index order, which preserves per-probe message structure and
every message count.  The join loop extends the result with each worker's
discoveries in slice index order, as in the source. -/
def execute (resp : String → ReqResult) (threads : Nat) (u : Url)
    (lines : List String) : List BusterMessage × List Url :=
  let runs := (List.range threads).map
    (fun i => workerRun resp u (workerSlice lines threads i))
  ((runs.map Prod.fst).flatten, (runs.map Prod.snd).flatten)

/-- The `while let Some(url) = urls_vec.pop()` loop of `Buster::run`, with
explicit fuel (the source loop's termination depends on the server's
answers; `none` means the fuel ran out).  `pop` takes the last element of
the frontier vector and `extend` appends the discoveries.  Returns the
trace of messages sent by the loop and the list of URLs handed to
`execute`, in order.  The depth guard reproduces
`url.path_segments().count() - path_len_start > self.recursion_depth`, with
the `usize` subtraction modelled as truncating `Nat` subtraction (frontier
URLs always extend the base, so the subtraction never underflows). -/
def runLoop (resp : String → ReqResult) (threads depth pathLenStart : Nat)
    (lines : List String) :
    Nat → List Url → Nat → Option (List BusterMessage × List Url)
  | fuel, urlsVec, progressLen =>
    match urlsVec.getLast? with
    | none => some ([], [])
    | some url =>
      match fuel with
      | 0 => none
      | fuel + 1 =>
        if url.pathSegments.length - pathLenStart > depth then
          runLoop resp threads depth pathLenStart lines fuel urlsVec.dropLast
            progressLen
        else
          let step := execute resp threads url lines
          match runLoop resp threads depth pathLenStart lines fuel
              (urlsVec.dropLast ++ step.2)
              (progressLen + step.2.length * lines.length) with
          | none => none
          | some (tailTrace, scanned) =>
              some ([BusterMessage.set_total_size progressLen,
                     BusterMessage.set_current_size progressLen]
                      ++ step.1 ++ tailTrace,
                    url :: scanned)

/-- Model of `Buster::run` once the wordlist has been loaded (a file-open
failure propagates via `?` before any message is sent and is outside this
model): push the base URL, run the frontier loop, then send
`finish_current` and `finish_total`.  Returns the full message trace and
the scanned URLs, or `none` when `fuel` loop iterations did not suffice. -/
def run (resp : String → ReqResult) (threads depth : Nat) (base : Url)
    (lines : List String) (fuel : Nat) :
    Option (List BusterMessage × List Url) :=
  match runLoop resp threads depth base.pathSegments.length lines fuel [base]
      lines.length with
  | none => none
  | some (trace, scanned) =>
      some (trace ++ [BusterMessage.finish_current, BusterMessage.finish_total],
            scanned)

/-- Number of messages in a trace satisfying `p`. -/
def countMsg (p : BusterMessage → Bool) (trace : List BusterMessage) : Nat :=
  (trace.filter p).length

/-- Recogniser for `Progress(Current, Advance)`. -/
def isAdvanceCurrent : BusterMessage → Bool
  | .Progress (.Current .Advance) => true
  | _ => false

/-- Recogniser for `Progress(Total, Advance)`. -/
def isAdvanceTotal : BusterMessage → Bool
  | .Progress (.Total .Advance) => true
  | _ => false

/-- Recogniser for `Progress(_, Finish)` on either stream. -/
def isFinishMsg : BusterMessage → Bool
  | .Progress (.Total .Finish) => true
  | .Progress (.Current .Finish) => true
  | _ => false

/-- Concatenating all worker slices in slice index order reassembles the
wordlist. -/
theorem workerSlices_flatten (words : List String) (n : Nat) :
    ((List.range (n + 1)).map (workerSlice words (n + 1))).flatten = words := by
  rw [List.range_succ, List.map_append, List.flatten_append]
  have hlast : workerSlice words (n + 1) n
      = words.drop (words.length / (n + 1) * n) := by
    simp [workerSlice]
  have hmap : (List.range n).map (workerSlice words (n + 1))
      = (List.range n).map
          (fun i => (words.drop (words.length / (n + 1) * i)).take
            (words.length / (n + 1))) := by
    apply List.map_congr_left
    intro i hi
    have hne : i ≠ n := by
      have := List.mem_range.mp hi
      omega
    simp [workerSlice, hne]
  rw [hmap]
  simp only [List.map_cons, List.map_nil, List.flatten_cons, List.flatten_nil,
    List.append_nil, hlast]
  exact slices_concat_drop words (words.length / (n + 1)) n

/-- C3: for pool size `threads ≥ 1`, concatenating the worker slices in
slice index order yields exactly the wordlist, so the slices partition it
with no overlaps and no omissions; the Rust slice bounds
`slice_size*i .. slice_size*i + slice_size` (and `slice_size*(threads-1) ..`
for the last worker) never exceed the wordlist length, so the `&words[..]`
indexing cannot panic, in particular when `words.length < threads` makes the
integer-division slice size zero; and a worker whose slice is empty sends no
message and returns no discovery. -/
theorem C3_slice_partition (words : List String) (threads : Nat)
    (h : 1 ≤ threads) :
    ((List.range threads).map (workerSlice words threads)).flatten = words ∧
    (∀ i, i < threads → i ≠ threads - 1 →
      words.length / threads * i + words.length / threads ≤ words.length) ∧
    words.length / threads * (threads - 1) ≤ words.length ∧
    (∀ (resp : String → ReqResult) (u : Url) (i : Nat),
      workerSlice words threads i = [] →
      workerRun resp u (workerSlice words threads i) = ([], [])) := by
  obtain ⟨n, rfl⟩ : ∃ n, threads = n + 1 := ⟨threads - 1, by omega⟩
  refine ⟨workerSlices_flatten words n, ?_, ?_, ?_⟩
  · intro i hi hne
    have h1 : words.length / (n + 1) * i + words.length / (n + 1)
        = words.length / (n + 1) * (i + 1) := by ring
    have h2 : words.length / (n + 1) * (i + 1)
        ≤ words.length / (n + 1) * (n + 1) :=
      Nat.mul_le_mul_left _ (by omega)
    have h3 : words.length / (n + 1) * (n + 1) ≤ words.length :=
      Nat.div_mul_le_self _ _
    omega
  · have h2 : words.length / (n + 1) * (n + 1 - 1)
        ≤ words.length / (n + 1) * (n + 1) :=
      Nat.mul_le_mul_left _ (by omega)
    have h3 := Nat.div_mul_le_self words.length (n + 1)
    omega
  · intro resp u i hempty
    rw [hempty]
    rfl

/-- Witness for C3 at `words = ["a", "b", "c"]`, `threads = 2`: slice 0 is
`["a"]`, slice 1 is `["b", "c"]`, and their concatenation is the wordlist. -/
theorem C3_slice_partition_witness :
    ((List.range 2).map (workerSlice ["a", "b", "c"] 2)).flatten
      = ["a", "b", "c"] :=
  (C3_slice_partition ["a", "b", "c"] 2 (by decide)).1

/-- C5 fails on the code: `map_while(Result::ok)` stops at the first `Err`
line, so a valid line after an invalid UTF-8 line is dropped too.  With a
file whose lines are `admin`, an invalid line, then `login`, the loaded
wordlist is `["admin"]`, not `["admin", "login"]` as the claim requires. -/
theorem C5_counterexample :
    loadWordlist [some "admin", none, some "login"] = ["admin"] ∧
    loadWordlist [some "admin", none, some "login"] ≠ ["admin", "login"] := by
  decide

/-- C5 amended: the loaded wordlist is the longest prefix of the file's
lines containing only valid UTF-8 lines, in order and with blank lines kept
as-is; reading stops at the first invalid line and everything from that
line on is dropped.  Formally, the raw lines split as a valid prefix `pre`
followed by a remainder that is empty or starts with the invalid line, and
the loaded list is exactly `pre`. -/
theorem C5_amended_load (rawLines : List (Option String)) :
    ∃ pre rest, rawLines = pre.map some ++ rest ∧
      (rest = [] ∨ rest.head? = some none) ∧
      loadWordlist rawLines = pre := by
  induction rawLines with
  | nil => exact ⟨[], [], by simp, Or.inl rfl, rfl⟩
  | cons x xs ih =>
    match x with
    | none =>
        exact ⟨[], none :: xs, by simp, Or.inr rfl, by simp [loadWordlist]⟩
    | some s =>
        obtain ⟨pre, rest, heq, hrest, hload⟩ := ih
        refine ⟨s :: pre, rest, by simp [heq], hrest, ?_⟩
        have hcons : loadWordlist (some s :: xs) = s :: loadWordlist xs := by
          simp [loadWordlist]
        rw [hcons, hload]

/-- Counting distributes over trace concatenation. -/
theorem countMsg_append (p : BusterMessage → Bool) (a b : List BusterMessage) :
    countMsg p (a ++ b) = countMsg p a + countMsg p b := by
  simp [countMsg, List.filter_append]

/-- Counting over a flattened list of traces sums the per-trace counts. -/
theorem countMsg_flatten (p : BusterMessage → Bool) :
    ∀ l : List (List BusterMessage),
      countMsg p l.flatten = (l.map (countMsg p)).sum := by
  intro l
  induction l with
  | nil => rfl
  | cons a t ih => simp [List.flatten_cons, countMsg_append, ih]

/-- Each probe sends exactly one `Advance(Current)` and one
`Advance(Total)`, in every branch of the match on the request outcome. -/
theorem probeStep_advance_counts (resp : String → ReqResult) (u : Url)
    (word : String) :
    countMsg isAdvanceCurrent (probeStep resp u word).1 = 1 ∧
    countMsg isAdvanceTotal (probeStep resp u word).1 = 1 := by
  cases hresp : resp (probeUrl u word) with
  | ok status =>
      by_cases h : status = 404 <;>
        simp [probeStep, hresp, h, countMsg, isAdvanceCurrent, isAdvanceTotal,
          BusterMessage.advance_current, BusterMessage.advance_total]
  | err e =>
      simp [probeStep, hresp, countMsg, isAdvanceCurrent, isAdvanceTotal,
        BusterMessage.advance_current, BusterMessage.advance_total]

/-- Unfolding lemma: the loop on an empty frontier exits at once. -/
theorem runLoop_empty (resp : String → ReqResult)
    (threads depth start : Nat) (lines : List String) (fuel : Nat)
    (urlsVec : List Url) (plen : Nat) (hgl : urlsVec.getLast? = none) :
    runLoop resp threads depth start lines fuel urlsVec plen
      = some ([], []) := by
  rw [runLoop, hgl]

/-- Unfolding lemma: zero fuel on a nonempty frontier yields `none`. -/
theorem runLoop_zero (resp : String → ReqResult)
    (threads depth start : Nat) (lines : List String)
    (urlsVec : List Url) (plen : Nat) (url : Url)
    (hgl : urlsVec.getLast? = some url) :
    runLoop resp threads depth start lines 0 urlsVec plen = none := by
  rw [runLoop, hgl]

/-- Unfolding lemma for one iteration of the loop on a nonempty frontier. -/
theorem runLoop_succ (resp : String → ReqResult)
    (threads depth start : Nat) (lines : List String) (fuel : Nat)
    (urlsVec : List Url) (plen : Nat) (url : Url)
    (hgl : urlsVec.getLast? = some url) :
    runLoop resp threads depth start lines (fuel + 1) urlsVec plen
      = if url.pathSegments.length - start > depth then
          runLoop resp threads depth start lines fuel urlsVec.dropLast plen
        else
          match runLoop resp threads depth start lines fuel
              (urlsVec.dropLast ++ (execute resp threads url lines).2)
              (plen + (execute resp threads url lines).2.length * lines.length)
            with
          | none => none
          | some (tailTrace, scanned) =>
              some ([BusterMessage.set_total_size plen,
                     BusterMessage.set_current_size plen]
                      ++ (execute resp threads url lines).1 ++ tailTrace,
                    url :: scanned) := by
  rw [runLoop, hgl]

/-- A worker sends exactly one advance pair per word of its slice. -/
theorem workerRun_advance_counts (resp : String → ReqResult) (u : Url) :
    ∀ slice : List String,
      countMsg isAdvanceCurrent (workerRun resp u slice).1 = slice.length ∧
      countMsg isAdvanceTotal (workerRun resp u slice).1 = slice.length := by
  intro slice
  induction slice with
  | nil => exact ⟨rfl, rfl⟩
  | cons w rest ih =>
      have hp := probeStep_advance_counts resp u w
      simp only [workerRun, countMsg_append, List.length_cons]
      omega

/-- One pool pass over the whole wordlist sends exactly `lines.length`
advance messages on each stream (the slices partition the wordlist). -/
theorem execute_advance_counts (resp : String → ReqResult) (threads : Nat)
    (u : Url) (lines : List String) (h : 1 ≤ threads) :
    countMsg isAdvanceCurrent (execute resp threads u lines).1 = lines.length ∧
    countMsg isAdvanceTotal (execute resp threads u lines).1 = lines.length := by
  obtain ⟨n, rfl⟩ : ∃ n, threads = n + 1 := ⟨threads - 1, by omega⟩
  have hlen : ((List.range (n + 1)).map
      (fun i => (workerSlice lines (n + 1) i).length)).sum = lines.length := by
    have hflat := congrArg List.length (workerSlices_flatten lines n)
    rw [List.length_flatten, List.map_map] at hflat
    exact hflat
  constructor <;>
  · simp only [execute, List.map_map]
    rw [countMsg_flatten, List.map_map]
    rw [← hlen]
    apply congrArg List.sum
    apply List.map_congr_left
    intro i _
    simp [Function.comp, workerRun_advance_counts]

/-- Advance counts over the frontier loop: `lines.length` advances per
scanned URL, on each stream. -/
theorem runLoop_advance_counts (resp : String → ReqResult)
    (threads depth start : Nat) (lines : List String) (h : 1 ≤ threads) :
    ∀ fuel urlsVec plen trace scanned,
      runLoop resp threads depth start lines fuel urlsVec plen
        = some (trace, scanned) →
      countMsg isAdvanceCurrent trace = lines.length * scanned.length ∧
      countMsg isAdvanceTotal trace = lines.length * scanned.length := by
  intro fuel
  induction fuel with
  | zero =>
      intro urlsVec plen trace scanned hrun
      cases hgl : urlsVec.getLast? with
      | none =>
          rw [runLoop_empty resp threads depth start lines 0 urlsVec plen hgl]
            at hrun
          injection hrun with hpair
          injection hpair with ht hs
          subst ht; subst hs
          exact ⟨rfl, rfl⟩
      | some url =>
          rw [runLoop_zero resp threads depth start lines urlsVec plen url hgl]
            at hrun
          cases hrun
  | succ fuel ih =>
      intro urlsVec plen trace scanned hrun
      cases hgl : urlsVec.getLast? with
      | none =>
          rw [runLoop_empty resp threads depth start lines (fuel + 1) urlsVec
            plen hgl] at hrun
          injection hrun with hpair
          injection hpair with ht hs
          subst ht; subst hs
          exact ⟨rfl, rfl⟩
      | some url =>
          rw [runLoop_succ resp threads depth start lines fuel urlsVec plen url
            hgl] at hrun
          by_cases hdepth : url.pathSegments.length - start > depth
          · rw [if_pos hdepth] at hrun
            exact ih urlsVec.dropLast plen trace scanned hrun
          · rw [if_neg hdepth] at hrun
            cases hrec : runLoop resp threads depth start lines fuel
                (urlsVec.dropLast ++ (execute resp threads url lines).2)
                (plen + (execute resp threads url lines).2.length * lines.length)
              with
            | none => rw [hrec] at hrun; cases hrun
            | some pr =>
                obtain ⟨tailTrace, scanned'⟩ := pr
                rw [hrec] at hrun
                injection hrun with hpair
                injection hpair with ht hs
                subst ht; subst hs
                have hexec := execute_advance_counts resp threads url lines h
                have htail := ih _ _ _ _ hrec
                simp only [countMsg_append, List.length_cons]
                constructor
                · rw [hexec.1, htail.1]
                  simp [countMsg, isAdvanceCurrent, BusterMessage.set_total_size,
                    BusterMessage.set_current_size]
                  ring
                · rw [hexec.2, htail.2]
                  simp [countMsg, isAdvanceTotal, BusterMessage.set_total_size,
                    BusterMessage.set_current_size]
                  ring

/-- C1: every probe sends exactly one `Advance(Current)` and one
`Advance(Total)` regardless of its outcome (success, 404, or transport
error), and over any successful run with pool size at least 1 the number of
`Advance(Current)` messages equals the number of `Advance(Total)` messages,
both equal to `lines.length * scanned.length` (`L × K`, where `K` is the
number of admissible URLs scanned). -/
theorem C1_advance_counts (resp : String → ReqResult)
    (threads depth fuel : Nat) (base : Url) (lines : List String)
    (trace : List BusterMessage) (scanned : List Url)
    (hthreads : 1 ≤ threads)
    (hrun : run resp threads depth base lines fuel = some (trace, scanned)) :
    (∀ u word, countMsg isAdvanceCurrent (probeStep resp u word).1 = 1 ∧
               countMsg isAdvanceTotal (probeStep resp u word).1 = 1) ∧
    countMsg isAdvanceCurrent trace = lines.length * scanned.length ∧
    countMsg isAdvanceTotal trace = lines.length * scanned.length := by
  refine ⟨probeStep_advance_counts resp, ?_⟩
  unfold run at hrun
  cases hloop : runLoop resp threads depth base.pathSegments.length lines fuel
      [base] lines.length with
  | none => rw [hloop] at hrun; cases hrun
  | some pr =>
      obtain ⟨loopTrace, loopScanned⟩ := pr
      rw [hloop] at hrun
      injection hrun with hpair
      injection hpair with ht hs
      subst ht; subst hs
      have hcounts := runLoop_advance_counts resp threads depth
        base.pathSegments.length lines hthreads fuel [base] lines.length
        loopTrace loopScanned hloop
      constructor
      · rw [countMsg_append, hcounts.1]
        simp [countMsg, isAdvanceCurrent, BusterMessage.finish_current,
          BusterMessage.finish_total]
      · rw [countMsg_append, hcounts.2]
        simp [countMsg, isAdvanceTotal, BusterMessage.finish_current,
          BusterMessage.finish_total]

/-- Concrete response oracle answering 404 to every candidate. -/
def resp0 : String → ReqResult := fun _ => .ok 404

/-- Concrete response oracle answering 200 for `http://h/a/` and 404
otherwise. -/
def resp1 : String → ReqResult :=
  fun s => if s = "http://h/a/" then .ok 200 else .ok 404

/-- Concrete base URL `http://h/`. -/
def base0 : Url := ⟨"http", some "h", "/"⟩

/-- The trace and scanned URLs of the concrete run of `resp0` over wordlist
`["a"]` with one thread, no recursion and fuel 2. -/
def runResult0 : List BusterMessage × List Url :=
  (run resp0 1 0 base0 ["a"] 2).getD ([], [])

/-- Witness for C1 at the concrete run `runResult0`: one advance on each
stream, `L × K = 1 × 1`. -/
theorem C1_advance_counts_witness :
    countMsg isAdvanceCurrent runResult0.1
        = (["a"] : List String).length * runResult0.2.length ∧
    countMsg isAdvanceTotal runResult0.1
        = (["a"] : List String).length * runResult0.2.length :=
  (C1_advance_counts resp0 1 0 2 base0 ["a"] runResult0.1 runResult0.2
    (by decide) (by decide)).2

/-- C2: for the probe of `word` against `u`, with candidate
`c = probeUrl u word`: when the GET succeeds with a status other than 404
the worker sends exactly `Progress(Current, Print("GET c -> status"))` and
`Log(INFO, "c -> status")` followed by the mandatory advance pair, and
appends the parsed candidate to its discovery list; when the status is 404
it sends only `Progress(Current, SetMessage("GET c -> 404"))` followed by
the advance pair — no `Log(INFO, …)` — and produces no discovery. -/
theorem C2_probe_outcomes (resp : String → ReqResult) (u : Url)
    (word : String) :
    (∀ status, resp (probeUrl u word) = .ok status → status ≠ 404 →
      probeStep resp u word =
        ([.Progress (.Current (.Print
            ("GET " ++ probeUrl u word ++ " -> " ++ toString status))),
          .Log .INFO (probeUrl u word ++ " -> " ++ toString status),
          .advance_current, .advance_total],
         [urlParseUnwrap (probeUrl u word)])) ∧
    (resp (probeUrl u word) = .ok 404 →
      probeStep resp u word =
        ([.Progress (.Current (.SetMessage
            ("GET " ++ probeUrl u word ++ " -> " ++ toString (404 : Nat)))),
          .advance_current, .advance_total],
         [])) := by
  constructor
  · intro status hresp hne
    simp [probeStep, hresp, hne]
  · intro hresp
    simp [probeStep, hresp]

/-- Witness for C2 at `resp1`, base `http://h/` and word `a` (status 200). -/
theorem C2_probe_outcomes_witness :
    probeStep resp1 base0 "a" =
      ([.Progress (.Current (.Print
          ("GET " ++ probeUrl base0 "a" ++ " -> " ++ toString (200 : Nat)))),
        .Log .INFO (probeUrl base0 "a" ++ " -> " ++ toString (200 : Nat)),
        .advance_current, .advance_total],
       [urlParseUnwrap (probeUrl base0 "a")]) :=
  (C2_probe_outcomes resp1 base0 "a").1 200 (by decide) (by decide)

/-- Every URL scanned by the frontier loop passed the depth guard. -/
theorem runLoop_scanned_admissible (resp : String → ReqResult)
    (threads depth start : Nat) (lines : List String) :
    ∀ fuel urlsVec plen trace scanned,
      runLoop resp threads depth start lines fuel urlsVec plen
        = some (trace, scanned) →
      ∀ u ∈ scanned, u.pathSegments.length - start ≤ depth := by
  intro fuel
  induction fuel with
  | zero =>
      intro urlsVec plen trace scanned hrun
      cases hgl : urlsVec.getLast? with
      | none =>
          rw [runLoop_empty resp threads depth start lines 0 urlsVec plen hgl]
            at hrun
          injection hrun with hpair
          injection hpair with ht hs
          subst hs
          intro u hu
          cases hu
      | some url =>
          rw [runLoop_zero resp threads depth start lines urlsVec plen url hgl]
            at hrun
          cases hrun
  | succ fuel ih =>
      intro urlsVec plen trace scanned hrun
      cases hgl : urlsVec.getLast? with
      | none =>
          rw [runLoop_empty resp threads depth start lines (fuel + 1) urlsVec
            plen hgl] at hrun
          injection hrun with hpair
          injection hpair with ht hs
          subst hs
          intro u hu
          cases hu
      | some url =>
          rw [runLoop_succ resp threads depth start lines fuel urlsVec plen url
            hgl] at hrun
          by_cases hdepth : url.pathSegments.length - start > depth
          · rw [if_pos hdepth] at hrun
            exact ih urlsVec.dropLast plen trace scanned hrun
          · rw [if_neg hdepth] at hrun
            cases hrec : runLoop resp threads depth start lines fuel
                (urlsVec.dropLast ++ (execute resp threads url lines).2)
                (plen + (execute resp threads url lines).2.length * lines.length)
              with
            | none => rw [hrec] at hrun; cases hrun
            | some pr =>
                obtain ⟨tailTrace, scanned'⟩ := pr
                rw [hrec] at hrun
                injection hrun with hpair
                injection hpair with ht hs
                subst hs
                intro u hu
                cases hu with
                | head => omega
                | tail _ hmem => exact ih _ _ _ _ hrec u hmem

/-- C4: over any successful run, every URL handed to the worker pool
(`execute`) is admissible — its segment count exceeds the base's by at most
`depth` — and a frontier entry beyond the limit is silently dropped: the
loop iteration that pops it emits no message, re-enqueues nothing, and
continues with the rest of the frontier unchanged. -/
theorem C4_depth_cap (resp : String → ReqResult) (threads depth fuel : Nat)
    (base : Url) (lines : List String) (trace : List BusterMessage)
    (scanned : List Url)
    (hrun : run resp threads depth base lines fuel = some (trace, scanned)) :
    (∀ u ∈ scanned,
      u.pathSegments.length - base.pathSegments.length ≤ depth) ∧
    (∀ (fuel' : Nat) (urlsVec : List Url) (plen : Nat) (url : Url),
      urlsVec.getLast? = some url →
      url.pathSegments.length - base.pathSegments.length > depth →
      runLoop resp threads depth base.pathSegments.length lines (fuel' + 1)
          urlsVec plen
        = runLoop resp threads depth base.pathSegments.length lines fuel'
            urlsVec.dropLast plen) := by
  constructor
  · unfold run at hrun
    cases hloop : runLoop resp threads depth base.pathSegments.length lines
        fuel [base] lines.length with
    | none => rw [hloop] at hrun; cases hrun
    | some pr =>
        obtain ⟨loopTrace, loopScanned⟩ := pr
        rw [hloop] at hrun
        injection hrun with hpair
        injection hpair with ht hs
        subst hs
        exact runLoop_scanned_admissible resp threads depth
          base.pathSegments.length lines fuel [base] lines.length loopTrace
          loopScanned hloop
  · intro fuel' urlsVec plen url hgl hdeep
    rw [runLoop_succ resp threads depth base.pathSegments.length lines fuel'
      urlsVec plen url hgl, if_pos hdeep]

/-- Witness for C4 at the concrete run `runResult0`: the base URL is the
only scanned URL and satisfies the depth bound. -/
theorem C4_depth_cap_witness :
    base0.pathSegments.length - base0.pathSegments.length ≤ 0 :=
  (C4_depth_cap resp0 1 0 2 base0 ["a"] runResult0.1 runResult0.2 (by decide)).1
    base0 (by decide)

/-- No message of a probe is a `Finish`. -/
theorem probeStep_no_finish (resp : String → ReqResult) (u : Url)
    (word : String) :
    ∀ m ∈ (probeStep resp u word).1, isFinishMsg m = false := by
  cases hresp : resp (probeUrl u word) with
  | ok status =>
      by_cases h : status = 404 <;>
        simp [probeStep, hresp, h, isFinishMsg,
          BusterMessage.advance_current, BusterMessage.advance_total]
  | err e =>
      simp [probeStep, hresp, isFinishMsg,
        BusterMessage.advance_current, BusterMessage.advance_total]

/-- No message of a worker's slice loop is a `Finish`. -/
theorem workerRun_no_finish (resp : String → ReqResult) (u : Url) :
    ∀ (slice : List String) (m : BusterMessage),
      m ∈ (workerRun resp u slice).1 → isFinishMsg m = false := by
  intro slice
  induction slice with
  | nil =>
      intro m hm
      cases hm
  | cons w rest ih =>
      intro m hm
      rcases List.mem_append.mp hm with hl | hr
      · exact probeStep_no_finish resp u w m hl
      · exact ih m hr

/-- No message of a pool pass is a `Finish`. -/
theorem execute_no_finish (resp : String → ReqResult) (threads : Nat)
    (u : Url) (lines : List String) :
    ∀ m ∈ (execute resp threads u lines).1, isFinishMsg m = false := by
  intro m hm
  simp only [execute, List.mem_flatten, List.mem_map] at hm
  obtain ⟨tr, ⟨pair, ⟨⟨i, hi, hpair⟩, hfst⟩⟩, hmem⟩ := hm
  subst hpair
  subst hfst
  exact workerRun_no_finish resp u (workerSlice lines threads i) m hmem

/-- No message of the frontier loop is a `Finish`. -/
theorem runLoop_no_finish (resp : String → ReqResult)
    (threads depth start : Nat) (lines : List String) :
    ∀ fuel urlsVec plen trace scanned,
      runLoop resp threads depth start lines fuel urlsVec plen
        = some (trace, scanned) →
      ∀ m ∈ trace, isFinishMsg m = false := by
  intro fuel
  induction fuel with
  | zero =>
      intro urlsVec plen trace scanned hrun
      cases hgl : urlsVec.getLast? with
      | none =>
          rw [runLoop_empty resp threads depth start lines 0 urlsVec plen hgl]
            at hrun
          injection hrun with hpair
          injection hpair with ht hs
          subst ht
          intro m hm
          cases hm
      | some url =>
          rw [runLoop_zero resp threads depth start lines urlsVec plen url hgl]
            at hrun
          cases hrun
  | succ fuel ih =>
      intro urlsVec plen trace scanned hrun
      cases hgl : urlsVec.getLast? with
      | none =>
          rw [runLoop_empty resp threads depth start lines (fuel + 1) urlsVec
            plen hgl] at hrun
          injection hrun with hpair
          injection hpair with ht hs
          subst ht
          intro m hm
          cases hm
      | some url =>
          rw [runLoop_succ resp threads depth start lines fuel urlsVec plen url
            hgl] at hrun
          by_cases hdepth : url.pathSegments.length - start > depth
          · rw [if_pos hdepth] at hrun
            exact ih urlsVec.dropLast plen trace scanned hrun
          · rw [if_neg hdepth] at hrun
            cases hrec : runLoop resp threads depth start lines fuel
                (urlsVec.dropLast ++ (execute resp threads url lines).2)
                (plen + (execute resp threads url lines).2.length * lines.length)
              with
            | none => rw [hrec] at hrun; cases hrun
            | some pr =>
                obtain ⟨tailTrace, scanned'⟩ := pr
                rw [hrec] at hrun
                injection hrun with hpair
                injection hpair with ht hs
                subst ht
                intro m hm
                rcases List.mem_append.mp hm with hl | htail
                · rcases List.mem_append.mp hl with hsz | hexec
                  · rcases hsz with _ | ⟨_, _ | ⟨_, h⟩⟩ <;>
                      first
                        | rfl
                        | cases h
                  · exact execute_no_finish resp threads url lines m hexec
                · exact ih _ _ _ _ hrec m htail

/-- C6: every successful run's trace is some prefix containing no `Finish`
message, followed by exactly `Progress(Current, Finish)` and then
`Progress(Total, Finish)` — so those two are the final two messages, in
that order, with nothing after them. -/
theorem C6_finish_last (resp : String → ReqResult)
    (threads depth fuel : Nat) (base : Url) (lines : List String)
    (trace : List BusterMessage) (scanned : List Url)
    (hrun : run resp threads depth base lines fuel = some (trace, scanned)) :
    ∃ pre, trace = pre ++ [BusterMessage.finish_current,
        BusterMessage.finish_total] ∧
      ∀ m ∈ pre, isFinishMsg m = false := by
  unfold run at hrun
  cases hloop : runLoop resp threads depth base.pathSegments.length lines fuel
      [base] lines.length with
  | none => rw [hloop] at hrun; cases hrun
  | some pr =>
      obtain ⟨loopTrace, loopScanned⟩ := pr
      rw [hloop] at hrun
      injection hrun with hpair
      injection hpair with ht hs
      subst ht
      exact ⟨loopTrace, rfl,
        runLoop_no_finish resp threads depth base.pathSegments.length lines
          fuel [base] lines.length loopTrace loopScanned hloop⟩

/-- Witness for C6 at the concrete run `runResult0` (its trace ends with the
two `Finish` messages). -/
theorem C6_finish_last_witness :
    ∃ pre, runResult0.1 = pre ++ [BusterMessage.finish_current,
        BusterMessage.finish_total] ∧
      ∀ m ∈ pre, isFinishMsg m = false :=
  C6_finish_last resp0 1 0 2 base0 ["a"] runResult0.1 runResult0.2 (by decide)

/-- Builder errors from `src/lib/worker/builder.rs` (`BuilderError`).
`UrlParseError` carries the description of the `url::ParseError` it wraps;
the model stores the offending input string. -/
inductive BuilderError
  | UrlParseError (e : String)
  | TargetNotSpecified
  | WordlistNotSpecified
  | InvalidFilePath
  | FileNotFound (s : String)
  | NotAFile (s : String)
  | SenderChannelNotSpecified
  deriving Repr, DecidableEq

/-- Default for `threads` (`DEFAULT_THREADS_NUMBER`). -/
def DEFAULT_THREADS_NUMBER : Nat := 50

/-- Default for `recursion` (`DEFAULT_RECURSIVE_MODE`). -/
def DEFAULT_RECURSIVE_MODE : Nat := 0

/-- Default for `timeout` (`DEFAULT_TIMEOUT`). -/
def DEFAULT_TIMEOUT : Nat := 5

/-- What the filesystem answers about a path, the information
`Path::exists` / `Path::is_file` read in `WorkerBuilder::wordlist`. -/
inductive FileStat
  | missing
  | existsNotFile
  | existsFile
  deriving Repr, DecidableEq

/-- Models `PathBuf::to_str().is_none()`: a `PathBuf` built with
`PathBuf::from(&str)` is always valid UTF-8, so the check can never fire;
it is kept to mirror the source. -/
def pathToStrIsNone (_p : String) : Bool := false

/-- The staged configuration object `WorkerBuilder` from
`src/lib/worker/builder.rs`.  `PathBuf` is modelled as the path string and
the `Arc<Sender<WorkerMessage>>` endpoint as an abstract identifier. -/
structure WorkerBuilder where
  threads : Option Nat := none
  recursion : Option Nat := none
  timeout : Option Nat := none
  wordlist : Option String := none
  uri : Option Url := none
  proxy_uri : Option Url := none
  error : Option BuilderError := none
  message_sender : Option Nat := none
  deriving Repr, DecidableEq

/-- The ready-to-run engine produced by `WorkerBuilder::build`
(`Worker::new(threads, recursion_depth, timeout, wordlist, uri,
message_sender, proxy_uri)`). -/
structure Worker where
  threads : Nat
  recursion_depth : Nat
  timeout : Nat
  wordlist : String
  uri : Url
  message_sender : Nat
  proxy_uri : Option Url
  deriving Repr, DecidableEq

/-- Setter `WorkerBuilder::threads`: a no-op once an error is latched;
stores any value, with no lower-bound check. -/
def WorkerBuilder.set_threads (b : WorkerBuilder) (threads : Nat) :
    WorkerBuilder :=
  if b.error.isSome then b else { b with threads := some threads }

/-- Setter `WorkerBuilder::message_sender`: stores the endpoint
unconditionally — the source has no latched-error check here. -/
def WorkerBuilder.set_message_sender (b : WorkerBuilder) (sender : Nat) :
    WorkerBuilder :=
  { b with message_sender := some sender }

/-- Setter `WorkerBuilder::recursive`: a no-op once an error is latched. -/
def WorkerBuilder.set_recursive (b : WorkerBuilder) (recursive : Nat) :
    WorkerBuilder :=
  if b.error.isSome then b else { b with recursion := some recursive }

/-- Setter `WorkerBuilder::timeout`: a no-op once an error is latched. -/
def WorkerBuilder.set_timeout (b : WorkerBuilder) (timeout : Nat) :
    WorkerBuilder :=
  if b.error.isSome then b else { b with timeout := some timeout }

/-- Setter `WorkerBuilder::wordlist`: a no-op once an error is latched;
otherwise latches `FileNotFound` for a missing path, `NotAFile` for a
non-regular file and `InvalidFilePath` for a non-UTF-8 path (unreachable,
see `pathToStrIsNone`), and stores the path when the checks pass. -/
def WorkerBuilder.set_wordlist (b : WorkerBuilder) (fs : String → FileStat)
    (wordlist_path : String) : WorkerBuilder :=
  if b.error.isSome then b
  else
    match fs wordlist_path with
    | .missing => { b with error := some (.FileNotFound wordlist_path) }
    | .existsNotFile => { b with error := some (.NotAFile wordlist_path) }
    | .existsFile =>
        if pathToStrIsNone wordlist_path then
          { b with error := some .InvalidFilePath }
        else { b with wordlist := some wordlist_path }

/-- Setter `WorkerBuilder::uri`: a no-op once an error is latched;
otherwise stores the parsed URL, or latches `UrlParseError` when
`Url::parse` fails.  No scheme or host requirement beyond what the parser
itself accepts. -/
def WorkerBuilder.set_uri (b : WorkerBuilder) (uri : String) :
    WorkerBuilder :=
  if b.error.isSome then b
  else
    match urlParse uri with
    | some url => { b with uri := some url }
    | none => { b with error := some (.UrlParseError uri) }

/-- Setter `WorkerBuilder::proxy_url`: a no-op once an error is latched or
when the argument is empty; otherwise stores the parsed URL or latches
`UrlParseError`. -/
def WorkerBuilder.set_proxy_url (b : WorkerBuilder) (proxy_uri : String) :
    WorkerBuilder :=
  if b.error.isSome || proxy_uri.isEmpty then b
  else
    match urlParse proxy_uri with
    | some url => { b with proxy_uri := some url }
    | none => { b with error := some (.UrlParseError proxy_uri) }

/-- Models `WorkerBuilder::build`: surfaces a latched error first, then
requires `uri`, `wordlist` and `message_sender`, filling `threads`,
`recursion` and `timeout` with their defaults. -/
def WorkerBuilder.build (b : WorkerBuilder) : Except BuilderError Worker :=
  match b.error with
  | some err => .error err
  | none =>
      match b.uri with
      | none => .error .TargetNotSpecified
      | some uri =>
          match b.wordlist with
          | none => .error .WordlistNotSpecified
          | some wordlist =>
              match b.message_sender with
              | none => .error .SenderChannelNotSpecified
              | some message_sender =>
                  .ok ⟨b.threads.getD DEFAULT_THREADS_NUMBER,
                       b.recursion.getD DEFAULT_RECURSIVE_MODE,
                       b.timeout.getD DEFAULT_TIMEOUT,
                       wordlist, uri, message_sender, b.proxy_uri⟩

/-- Filesystem oracle for the builder witnesses: every path is an existing
regular file. -/
def fsAllFiles : String → FileStat := fun _ => .existsFile

/-- C7 fails on the code: neither `WorkerBuilder::threads` nor
`WorkerBuilder::build` checks the pool size, so `threads = 0` is not
rejected — with target, wordlist and sender set, `build()` succeeds and
yields a `Worker` with `threads = 0` instead of returning an error. -/
theorem C7_counterexample :
    ((((({} : WorkerBuilder).set_threads 0).set_uri
          "http://example.com/").set_wordlist fsAllFiles
            "wl.txt").set_message_sender 0).build
      = .ok ⟨0, DEFAULT_RECURSIVE_MODE, DEFAULT_TIMEOUT, "wl.txt",
             ⟨"http", some "example.com", "/"⟩, 0, none⟩ := by
  rfl

/-- C7 amended: the builder accepts a pool size of zero — `threads 0`
stores the value unchecked and, when target, wordlist and sender are set,
`build()` returns a `Worker` whose pool size is `0` (the `≥ 1` constraint
is not enforced anywhere in the builder). -/
theorem C7_amended_zero_threads (b : WorkerBuilder) (u : Url) (wl : String)
    (ms : Nat) (herr : b.error = none) (hu : b.uri = some u)
    (hw : b.wordlist = some wl) (hm : b.message_sender = some ms) :
    ∃ w, (b.set_threads 0).build = .ok w ∧ w.threads = 0 := by
  refine ⟨⟨0, b.recursion.getD DEFAULT_RECURSIVE_MODE,
           b.timeout.getD DEFAULT_TIMEOUT, wl, u, ms, b.proxy_uri⟩, ?_, rfl⟩
  simp [WorkerBuilder.set_threads, WorkerBuilder.build, herr, hu, hw, hm]

/-- Witness for C7 amended at a fully specified builder. -/
theorem C7_amended_zero_threads_witness :
    ∃ w, ((((({} : WorkerBuilder).set_uri
          "http://example.com/").set_wordlist fsAllFiles
            "wl.txt").set_message_sender 0).set_threads 0).build = .ok w ∧
      w.threads = 0 :=
  C7_amended_zero_threads
    (((({} : WorkerBuilder).set_uri "http://example.com/").set_wordlist
        fsAllFiles "wl.txt").set_message_sender 0)
    ⟨"http", some "example.com", "/"⟩ "wl.txt" 0
    (by decide) (by decide) (by decide) (by decide)

/-- C8 fails on the code: `WorkerBuilder::uri` only requires `Url::parse`
to succeed — it checks neither the scheme nor anything else about the
parsed URL.  The non-http target `ftp://example.com/` parses, so the
setter stores it and latches no error, instead of rejecting it with
`UrlParseError` as the claim requires. -/
theorem C8_counterexample :
    (({} : WorkerBuilder).set_uri "ftp://example.com/").uri
        = some ⟨"ftp", some "example.com", "/"⟩ ∧
    (({} : WorkerBuilder).set_uri "ftp://example.com/").error = none :=
  ⟨rfl, rfl⟩

/-- C8 amended: the `uri` setter validates parseability only — any string
the URL parser accepts, whatever its scheme, is stored as the target with
no error latched, and a string that fails to parse latches
`UrlParseError`. -/
theorem C8_amended_uri_validation (b : WorkerBuilder) (s : String)
    (herr : b.error = none) :
    (∀ u, urlParse s = some u →
      (b.set_uri s).uri = some u ∧ (b.set_uri s).error = none) ∧
    (urlParse s = none →
      (b.set_uri s).error = some (.UrlParseError s)) := by
  constructor
  · intro u hp
    simp [WorkerBuilder.set_uri, herr, hp]
  · intro hp
    simp [WorkerBuilder.set_uri, herr, hp]

/-- Witness for C8 amended: an https target is stored with no error. -/
theorem C8_amended_uri_validation_witness :
    (({} : WorkerBuilder).set_uri "https://example.com/x").uri
        = some ⟨"https", some "example.com", "/x"⟩ ∧
    (({} : WorkerBuilder).set_uri "https://example.com/x").error = none :=
  (C8_amended_uri_validation {} "https://example.com/x" rfl).1
    ⟨"https", some "example.com", "/x"⟩ (by rfl)

/-- Builder with a latched `UrlParseError` from the unparsable target
string `not a url`. -/
def latchedBuilder : WorkerBuilder :=
  ({} : WorkerBuilder).set_uri "not a url"

/-- C9 fails on the code: `WorkerBuilder::message_sender` has no
latched-error check — called on a builder with a latched `UrlParseError`
it still stores the endpoint, so the builder's state does change, contrary
to the claim that every subsequent setter call is a no-op. -/
theorem C9_counterexample :
    latchedBuilder.error = some (.UrlParseError "not a url") ∧
    latchedBuilder.set_message_sender 7 ≠ latchedBuilder :=
  ⟨rfl, by decide⟩

/-- C9 amended: once an error is latched, `threads`, `recursive`,
`timeout`, `wordlist`, `uri` and `proxy_url` are no-ops that leave the
builder entirely unchanged, and `build()` returns the latched error.  The
exception is `message_sender`, which still records the endpoint — but it
leaves the latched error intact, so `build()` still returns the first
latched error after it. -/
theorem C9_amended_latched_error (b : WorkerBuilder) (e : BuilderError)
    (herr : b.error = some e) :
    (∀ n, b.set_threads n = b) ∧
    (∀ n, b.set_recursive n = b) ∧
    (∀ n, b.set_timeout n = b) ∧
    (∀ fs p, b.set_wordlist fs p = b) ∧
    (∀ s, b.set_uri s = b) ∧
    (∀ s, b.set_proxy_url s = b) ∧
    (∀ x, (b.set_message_sender x).error = some e) ∧
    b.build = .error e ∧
    (∀ x, (b.set_message_sender x).build = .error e) := by
  have hsome : b.error.isSome = true := by rw [herr]; rfl
  refine ⟨?_, ?_, ?_, ?_, ?_, ?_, ?_, ?_, ?_⟩
  · intro n
    simp [WorkerBuilder.set_threads, hsome]
  · intro n
    simp [WorkerBuilder.set_recursive, hsome]
  · intro n
    simp [WorkerBuilder.set_timeout, hsome]
  · intro fs p
    simp [WorkerBuilder.set_wordlist, hsome]
  · intro s
    simp [WorkerBuilder.set_uri, hsome]
  · intro s
    simp [WorkerBuilder.set_proxy_url, hsome]
  · intro x
    simp [WorkerBuilder.set_message_sender, herr]
  · simp [WorkerBuilder.build, herr]
  · intro x
    simp [WorkerBuilder.build, WorkerBuilder.set_message_sender, herr]

/-- Witness for C9 amended at the concrete latched builder. -/
theorem C9_amended_latched_error_witness :
    latchedBuilder.build = .error (.UrlParseError "not a url") :=
  (C9_amended_latched_error latchedBuilder (.UrlParseError "not a url")
    rfl).2.2.2.2.2.2.2.1

/-- Models one `self.message_sender.send(m).expect("SENDER ERROR")`: while
the receiver is alive the message is delivered (trace fragment `[m]`); once
the receiver has been dropped, `send` returns `Err(SendError)` and `expect`
panics with the message `SENDER ERROR`, modelled as the exceptional
result. -/
def sendE (alive : Bool) (m : BusterMessage) :
    Except String (List BusterMessage) :=
  if alive then .ok [m] else .error "SENDER ERROR"

/-- Send-aware version of `probeStep`: every send goes through `sendE`, so
with a dropped receiver the worker panics at its first send. -/
def probeStepE (alive : Bool) (resp : String → ReqResult) (u : Url)
    (word : String) : Except String (List BusterMessage × List Url) :=
  let url := probeUrl u word
  match resp url with
  | .ok status =>
      if status ≠ 404 then
        match sendE alive (.Progress (.Current (.Print
            ("GET " ++ url ++ " -> " ++ toString status)))) with
        | .error e => .error e
        | .ok m1 =>
            match sendE alive (.Log .INFO (url ++ " -> " ++ toString status))
              with
            | .error e => .error e
            | .ok m2 =>
                match sendE alive .advance_current with
                | .error e => .error e
                | .ok m3 =>
                    match sendE alive .advance_total with
                    | .error e => .error e
                    | .ok m4 =>
                        .ok (m1 ++ m2 ++ m3 ++ m4, [urlParseUnwrap url])
      else
        match sendE alive (.Progress (.Current (.SetMessage
            ("GET " ++ url ++ " -> " ++ toString status)))) with
        | .error e => .error e
        | .ok m1 =>
            match sendE alive .advance_current with
            | .error e => .error e
            | .ok m2 =>
                match sendE alive .advance_total with
                | .error e => .error e
                | .ok m3 => .ok (m1 ++ m2 ++ m3, [])
  | .err err =>
      match sendE alive (.Progress (.Current (.Print
          ("Error while sending request to " ++ url ++ ": " ++ err)))) with
      | .error e => .error e
      | .ok m1 =>
          match sendE alive .advance_current with
          | .error e => .error e
          | .ok m2 =>
              match sendE alive .advance_total with
              | .error e => .error e
              | .ok m3 => .ok (m1 ++ m2 ++ m3, [])

/-- Send-aware version of `workerRun`. -/
def workerRunE (alive : Bool) (resp : String → ReqResult) (u : Url) :
    List String → Except String (List BusterMessage × List Url)
  | [] => .ok ([], [])
  | word :: rest =>
      match probeStepE alive resp u word with
      | .error e => .error e
      | .ok step =>
          match workerRunE alive resp u rest with
          | .error e => .error e
          | .ok tail => .ok (step.1 ++ tail.1, step.2 ++ tail.2)

/-- The join loop at the end of `Buster::execute`: an `Ok` worker extends
the collected result; a panicked worker (its `join` returns `Err`) is
reported with `Log(CRITICAL, "Panic in thread: …")` — a send that itself
goes through `expect("SENDER ERROR")`.  The source's `Ok(Err(BusterError))`
arm is unreachable because the worker closure always returns `Ok`. -/
def joinLoop (alive : Bool) :
    List (Except String (List BusterMessage × List Url)) →
    List BusterMessage × List Url →
    Except String (List BusterMessage × List Url)
  | [], acc => .ok acc
  | .ok (ms, ds) :: rest, acc =>
      joinLoop alive rest (acc.1 ++ ms, acc.2 ++ ds)
  | .error e :: rest, acc =>
      match sendE alive (.Log .CRITICAL ("Panic in thread: " ++ e)) with
      | .error e2 => .error e2
      | .ok m => joinLoop alive rest (acc.1 ++ m, acc.2)

/-- Send-aware version of `execute`: spawn the workers over their slices
(each may panic at a send), then join them in slice order. -/
def executeE (alive : Bool) (resp : String → ReqResult) (threads : Nat)
    (u : Url) (lines : List String) :
    Except String (List BusterMessage × List Url) :=
  joinLoop alive
    ((List.range threads).map
      (fun i => workerRunE alive resp u (workerSlice lines threads i)))
    ([], [])

/-- Send-aware version of `runLoop`: the pair of `SetSize` sends precedes
the pool pass and both go through `expect("SENDER ERROR")`. -/
def runLoopE (alive : Bool) (resp : String → ReqResult)
    (threads depth pathLenStart : Nat) (lines : List String) :
    Nat → List Url → Nat →
    Except String (Option (List BusterMessage × List Url))
  | fuel, urlsVec, progressLen =>
    match urlsVec.getLast? with
    | none => .ok (some ([], []))
    | some url =>
      match fuel with
      | 0 => .ok none
      | fuel + 1 =>
        if url.pathSegments.length - pathLenStart > depth then
          runLoopE alive resp threads depth pathLenStart lines fuel
            urlsVec.dropLast progressLen
        else
          match sendE alive (BusterMessage.set_total_size progressLen) with
          | .error e => .error e
          | .ok m1 =>
            match sendE alive (BusterMessage.set_current_size progressLen)
              with
            | .error e => .error e
            | .ok m2 =>
              match executeE alive resp threads url lines with
              | .error e => .error e
              | .ok step =>
                match runLoopE alive resp threads depth pathLenStart lines
                    fuel (urlsVec.dropLast ++ step.2)
                    (progressLen + step.2.length * lines.length) with
                | .error e => .error e
                | .ok none => .ok none
                | .ok (some (tailTrace, scanned)) =>
                    .ok (some (m1 ++ m2 ++ step.1 ++ tailTrace,
                               url :: scanned))

/-- Send-aware version of `run`: the two `Finish` sends after the loop also
go through `expect("SENDER ERROR")`. -/
def runE (alive : Bool) (resp : String → ReqResult) (threads depth : Nat)
    (base : Url) (lines : List String) (fuel : Nat) :
    Except String (Option (List BusterMessage × List Url)) :=
  match runLoopE alive resp threads depth base.pathSegments.length lines fuel
      [base] lines.length with
  | .error e => .error e
  | .ok none => .ok none
  | .ok (some (trace, scanned)) =>
      match sendE alive BusterMessage.finish_current with
      | .error e => .error e
      | .ok f1 =>
          match sendE alive BusterMessage.finish_total with
          | .error e => .error e
          | .ok f2 => .ok (some (trace ++ f1 ++ f2, scanned))

/-- With the receiver dropped, an iteration of the loop on an admissible
frontier head panics at its first send (the `SetSize(Total)`). -/
theorem runLoopE_false_step (resp : String → ReqResult)
    (threads depth start : Nat) (lines : List String) (fuel : Nat)
    (urlsVec : List Url) (plen : Nat) (url : Url)
    (hgl : urlsVec.getLast? = some url)
    (hguard : ¬ url.pathSegments.length - start > depth) :
    runLoopE false resp threads depth start lines (fuel + 1) urlsVec plen
      = .error "SENDER ERROR" := by
  rw [runLoopE, hgl]
  simp [hguard, sendE]

/-- C10 amended: the engine does not treat a send failure as a condition to
drain and return cleanly — every send goes through
`expect("SENDER ERROR")`, so once the receiver is dropped the very first
send of the run (the `SetSize(Total)` for the base URL, which is always
admissible since its depth excess is zero) panics and the run aborts
abnormally, for every configuration and any positive fuel. -/
theorem C10_amended_send_failure_panics (resp : String → ReqResult)
    (threads depth : Nat) (base : Url) (lines : List String) (fuel : Nat)
    (hfuel : 1 ≤ fuel) :
    runE false resp threads depth base lines fuel = .error "SENDER ERROR" := by
  obtain ⟨f, rfl⟩ : ∃ f, fuel = f + 1 := ⟨fuel - 1, by omega⟩
  have hstep := runLoopE_false_step resp threads depth
    base.pathSegments.length lines f [base] lines.length base rfl (by omega)
  rw [runE, hstep]

/-- Witness for C10 amended at the concrete configuration of `runResult0`:
with the receiver dropped the run is the `SENDER ERROR` panic. -/
theorem C10_amended_send_failure_panics_witness :
    runE false resp0 1 0 base0 ["a"] 2 = .error "SENDER ERROR" :=
  C10_amended_send_failure_panics resp0 1 0 base0 ["a"] 2 (by decide)

/-- C10 fails on the code: with the receiver dropped, the concrete run does
not return cleanly — it ends in the `expect("SENDER ERROR")` panic (an
exceptional outcome, not an `Ok` return), while the same configuration with
a live receiver completes normally. -/
theorem C10_counterexample :
    runE false resp1 2 0 base0 ["a", "b"] 2 = .error "SENDER ERROR" ∧
    (runE false resp1 2 0 base0 ["a", "b"] 2).isOk = false ∧
    (runE true resp1 2 0 base0 ["a", "b"] 2).isOk = true :=
  ⟨rfl, rfl, rfl⟩

/-- With a live receiver the send-aware probe agrees with the pure one. -/
theorem probeStepE_true (resp : String → ReqResult) (u : Url)
    (word : String) :
    probeStepE true resp u word = .ok (probeStep resp u word) := by
  cases hresp : resp (probeUrl u word) with
  | ok status =>
      by_cases h : status = 404 <;>
        simp [probeStepE, probeStep, hresp, h, sendE]
  | err e => simp [probeStepE, probeStep, hresp, sendE]

/-- With a live receiver the send-aware worker loop agrees with the pure
one. -/
theorem workerRunE_true (resp : String → ReqResult) (u : Url) :
    ∀ slice, workerRunE true resp u slice = .ok (workerRun resp u slice) := by
  intro slice
  induction slice with
  | nil => rfl
  | cons w rest ih => simp [workerRunE, workerRun, probeStepE_true, ih]

/-- Joining a list of successfully returned workers accumulates their
traces and discoveries in order. -/
theorem joinLoop_oks (alive : Bool) :
    ∀ (l : List (List BusterMessage × List Url))
      (acc : List BusterMessage × List Url),
      joinLoop alive (l.map Except.ok) acc
        = .ok (acc.1 ++ (l.map Prod.fst).flatten,
               acc.2 ++ (l.map Prod.snd).flatten) := by
  intro l
  induction l with
  | nil =>
      intro acc
      simp [joinLoop]
  | cons p rest ih =>
      intro acc
      obtain ⟨ms, ds⟩ := p
      simp [joinLoop, ih]

/-- With a live receiver the send-aware pool pass agrees with the pure
one. -/
theorem executeE_true (resp : String → ReqResult) (threads : Nat) (u : Url)
    (lines : List String) :
    executeE true resp threads u lines
      = .ok (execute resp threads u lines) := by
  have hmap : (List.range threads).map
      (fun i => workerRunE true resp u (workerSlice lines threads i))
      = ((List.range threads).map
          (fun i => workerRun resp u (workerSlice lines threads i))).map
            Except.ok := by
    rw [List.map_map]
    apply List.map_congr_left
    intro i _
    exact workerRunE_true resp u (workerSlice lines threads i)
  rw [executeE, hmap, joinLoop_oks]
  simp [execute, List.map_map, Function.comp]

/-- Unfolding lemma: send-aware loop, empty frontier. -/
theorem runLoopE_empty (alive : Bool) (resp : String → ReqResult)
    (threads depth start : Nat) (lines : List String) (fuel : Nat)
    (urlsVec : List Url) (plen : Nat) (hgl : urlsVec.getLast? = none) :
    runLoopE alive resp threads depth start lines fuel urlsVec plen
      = .ok (some ([], [])) := by
  rw [runLoopE, hgl]

/-- Unfolding lemma: send-aware loop, zero fuel on a nonempty frontier. -/
theorem runLoopE_zero (alive : Bool) (resp : String → ReqResult)
    (threads depth start : Nat) (lines : List String)
    (urlsVec : List Url) (plen : Nat) (url : Url)
    (hgl : urlsVec.getLast? = some url) :
    runLoopE alive resp threads depth start lines 0 urlsVec plen
      = .ok none := by
  rw [runLoopE, hgl]

/-- Unfolding lemma for one iteration of the send-aware loop on a nonempty
frontier. -/
theorem runLoopE_succ (alive : Bool) (resp : String → ReqResult)
    (threads depth start : Nat) (lines : List String) (fuel : Nat)
    (urlsVec : List Url) (plen : Nat) (url : Url)
    (hgl : urlsVec.getLast? = some url) :
    runLoopE alive resp threads depth start lines (fuel + 1) urlsVec plen
      = if url.pathSegments.length - start > depth then
          runLoopE alive resp threads depth start lines fuel urlsVec.dropLast
            plen
        else
          match sendE alive (BusterMessage.set_total_size plen) with
          | .error e => .error e
          | .ok m1 =>
            match sendE alive (BusterMessage.set_current_size plen) with
            | .error e => .error e
            | .ok m2 =>
              match executeE alive resp threads url lines with
              | .error e => .error e
              | .ok step =>
                match runLoopE alive resp threads depth start lines fuel
                    (urlsVec.dropLast ++ step.2)
                    (plen + step.2.length * lines.length) with
                | .error e => .error e
                | .ok none => .ok none
                | .ok (some (tailTrace, scanned)) =>
                    .ok (some (m1 ++ m2 ++ step.1 ++ tailTrace,
                               url :: scanned)) := by
  rw [runLoopE, hgl]

/-- With a live receiver the send-aware frontier loop agrees with the pure
one. -/
theorem runLoopE_true (resp : String → ReqResult)
    (threads depth start : Nat) (lines : List String) :
    ∀ fuel urlsVec plen,
      runLoopE true resp threads depth start lines fuel urlsVec plen
        = .ok (runLoop resp threads depth start lines fuel urlsVec plen) := by
  intro fuel
  induction fuel with
  | zero =>
      intro urlsVec plen
      cases hgl : urlsVec.getLast? with
      | none =>
          rw [runLoopE_empty true resp threads depth start lines 0 urlsVec
            plen hgl, runLoop_empty resp threads depth start lines 0 urlsVec
            plen hgl]
      | some url =>
          rw [runLoopE_zero true resp threads depth start lines urlsVec plen
            url hgl, runLoop_zero resp threads depth start lines urlsVec plen
            url hgl]
  | succ fuel ih =>
      intro urlsVec plen
      cases hgl : urlsVec.getLast? with
      | none =>
          rw [runLoopE_empty true resp threads depth start lines (fuel + 1)
            urlsVec plen hgl, runLoop_empty resp threads depth start lines
            (fuel + 1) urlsVec plen hgl]
      | some url =>
          rw [runLoopE_succ true resp threads depth start lines fuel urlsVec
            plen url hgl, runLoop_succ resp threads depth start lines fuel
            urlsVec plen url hgl]
          by_cases hguard : url.pathSegments.length - start > depth
          · rw [if_pos hguard, if_pos hguard]
            exact ih urlsVec.dropLast plen
          · rw [if_neg hguard, if_neg hguard, executeE_true]
            have hsend : ∀ m : BusterMessage, sendE true m = .ok [m] :=
              fun m => rfl
            simp only [hsend]
            rw [ih]
            cases hrl : runLoop resp threads depth start lines fuel
                (urlsVec.dropLast ++ (execute resp threads url lines).2)
                (plen + (execute resp threads url lines).2.length
                  * lines.length) with
            | none => rfl
            | some pr =>
                obtain ⟨tailTrace, scanned⟩ := pr
                simp

/-- With a live receiver the send-aware engine agrees with the pure model:
`runE true` returns exactly the trace and scan list of `run`. -/
theorem runE_true_ok (resp : String → ReqResult) (threads depth : Nat)
    (base : Url) (lines : List String) (fuel : Nat) :
    runE true resp threads depth base lines fuel
      = .ok (run resp threads depth base lines fuel) := by
  rw [runE, runLoopE_true]
  unfold run
  cases hrl : runLoop resp threads depth base.pathSegments.length lines fuel
      [base] lines.length with
  | none => rfl
  | some pr =>
      obtain ⟨trace, scanned⟩ := pr
      simp [sendE]
